import Mathlib

/-!
Verification of the valkey-rest HTTP layer (main.go): the authorization
middleware, the get/set/delete handlers, and the cursor-driven list handler.
Handlers are embedded shallowly: the external store's reply is a parameter
of each handler function, and the handler computes the HTTP response
(status code plus structured body) exactly as the Go code does.
-/

namespace ValkeyRest

/-- Structured response bodies produced by the handlers. The Go code
serializes each of these as a JSON object; `err` is `ErrorResponse`,
`kv` is `GetResponse`, and the others are the ad-hoc maps in main.go.
The `list` body keeps the Go slice as `Option (List String)` so that a
nil slice (`none`, serialized as JSON null) is distinguishable from a
non-nil empty slice (`some []`, serialized as `[]`). -/
inductive RespBody
  | err (msg : String)
  | kv (key value : String)
  | created (key : String)
  | deleted (key : String)
  | list (keys : Option (List String)) (count : Nat)
  deriving DecidableEq, Repr

/-- An HTTP response: status code and body. -/
structure Resp where
  status : Nat
  body : RespBody
  deriving DecidableEq, Repr

/-- Decision of the authorization middleware: pass the request to the
wrapped handler, or answer 401 immediately with the given error body. -/
inductive AuthDecision
  | allow
  | reject (status : Nat) (msg : String)
  deriving DecidableEq, Repr

/-- Token extraction from main.go lines 75-78: start from the raw header;
if the header is longer than 7 characters and its first 7 characters are
exactly "Bearer ", strip them. -/
def extractToken (authHeader : String) : String :=
  if 7 < authHeader.length ∧ authHeader.take 7 = "Bearer " then
    authHeader.drop 7
  else
    authHeader

/-- The authorization middleware, main.go lines 58-88. `authToken` is the
configured secret, `authHeader` the value of the Authorization header
(Go's Header.Get returns "" when the header is missing, so a missing
header and an empty header are both the empty string). -/
def authMiddleware (authToken authHeader : String) : AuthDecision :=
  if authToken = "" then .allow
  else if authHeader = "" then .reject 401 "authorization token required"
  else if extractToken authHeader = authToken then .allow
  else .reject 401 "invalid authorization token"

/-- Outcome of the store GET command as seen through valkey-go: either the
value string, or the distinguished valkey.Nil error (key absent), or some
other error carrying a backend message. -/
inductive GetErr
  | nil
  | other (msg : String)
  deriving DecidableEq, Repr

/-- The GET /keys/{key} handler, main.go lines 117-142. `store` is the
result of the single store lookup. -/
def handleGet (key : String) (store : Except GetErr String) : Resp :=
  if key = "" then ⟨400, .err "key is required"⟩
  else
    match store with
    | .error .nil => ⟨404, .err "key not found"⟩
    | .error (.other _) => ⟨500, .err "internal server error"⟩
    | .ok v => ⟨200, .kv key v⟩

/-- The DELETE /keys/{key} handler, main.go lines 185-211. `store` is the
result of the DEL command: a transport error message, or the count of keys
the engine removed. -/
def handleDelete (key : String) (store : Except String Int) : Resp :=
  if key = "" then ⟨400, .err "key is required"⟩
  else
    match store with
    | .error _ => ⟨500, .err "internal server error"⟩
    | .ok n => if n = 0 then ⟨404, .err "key not found"⟩ else ⟨200, .deleted key⟩

/-- The request body struct of main.go lines 37-40. A field absent from the
JSON body keeps its Go zero value: "" for Value, 0 for Expiration. -/
structure SetRequest where
  Value : String
  Expiration : Int
  deriving DecidableEq, Repr

/-- A JSON value, used to model the decoding of the request body. -/
inductive Json
  | str (s : String)
  | num (n : Int)
  | bool (b : Bool)
  | null
  | arr (elems : List Json)
  | obj (fields : List (String × Json))

/-- ASCII-style lowercasing of a field name, used to model encoding/json's
case-insensitive matching of JSON field names against struct tags. -/
def lowerName (s : String) : String :=
  ⟨s.data.map Char.toLower⟩

/-- One step of decoding a JSON object field into a SetRequest, modelled
from Go encoding/json: field names match the struct tags "value" and
"expiration" case-insensitively, a type mismatch on a matching field is a
decode error, and any other field is skipped. -/
def applyField (req : SetRequest) (name : String) (v : Json) : Option SetRequest :=
  if lowerName name = "value" then
    match v with
    | .str s => some { req with Value := s }
    | _ => none
  else if lowerName name = "expiration" then
    match v with
    | .num n => some { req with Expiration := n }
    | _ => none
  else some req

/-- Fold of `applyField` over the object fields in order; with duplicate
names the later field wins, as in encoding/json. -/
def decodeFields (req : SetRequest) : List (String × Json) → Option SetRequest
  | [] => some req
  | (n, v) :: rest =>
    match applyField req n v with
    | none => none
    | some r => decodeFields r rest

/-- Decoding the request body into a SetRequest, modelled from Go
encoding/json: an object decodes field by field starting from the zero
struct, a JSON null leaves the zero struct, anything else is an error. -/
def decodeSetRequest : Json → Option SetRequest
  | .obj fields => decodeFields ⟨"", 0⟩ fields
  | .null => some ⟨"", 0⟩
  | _ => none

/-- The store SET command the handler builds: key, value, and the optional
EX expiry argument in seconds. -/
structure SetCmd where
  key : String
  value : String
  ex : Option Int
  deriving DecidableEq, Repr

/-- The POST /keys/{key} handler, main.go lines 144-183. `decoded` is the
outcome of decoding the request body (none covers malformed JSON and type
mismatches alike), `storeErr` tells whether the issued SET command failed.
Returns the response together with the SET command issued, if any: the
builder attaches the EX argument exactly when Expiration > 0 (lines
168-172). -/
def handleSet (key : String) (decoded : Option SetRequest) (storeErr : Bool) :
    Resp × Option SetCmd :=
  if key = "" then (⟨400, .err "key is required"⟩, none)
  else
    match decoded with
    | none => (⟨400, .err "invalid request body"⟩, none)
    | some req =>
      if req.Value = "" then (⟨400, .err "value is required"⟩, none)
      else
        let cmd : SetCmd :=
          ⟨key, req.Value, if 0 < req.Expiration then some req.Expiration else none⟩
        if storeErr then (⟨500, .err "internal server error"⟩, some cmd)
        else (⟨201, .created key⟩, some cmd)

/-- Helper: a non-empty string has positive length. -/
theorem length_pos_of_ne_empty (S : String) (hS : S ≠ "") : 0 < S.length := by
  cases S with
  | mk d =>
    cases d with
    | nil => exact absurd rfl hS
    | cons c cs => simp [String.length]

/-- Helper: prefixing a non-empty string with "Bearer " always yields a header
from which `extractToken` recovers exactly the original string. -/
theorem extractToken_bearer (S : String) (hS : S ≠ "") :
    extractToken ("Bearer " ++ S) = S := by
  have hb : ("Bearer " : String).data.length = 7 := by decide
  have hlen : 7 < ("Bearer " ++ S).length := by
    rw [String.length_append]
    have h7 : ("Bearer " : String).length = 7 := by decide
    have := length_pos_of_ne_empty S hS
    omega
  have htake : ("Bearer " ++ S).take 7 = "Bearer " := by
    apply String.ext
    rw [String.data_take, String.data_append, ← hb, List.take_left]
  have hdrop : ("Bearer " ++ S).drop 7 = S := by
    apply String.ext
    rw [String.data_drop, String.data_append, ← hb, List.drop_left]
  rw [extractToken, if_pos ⟨hlen, htake⟩, hdrop]

/-- Helper: the "Bearer "-prefixed form of a non-empty string is non-empty. -/
theorem bearer_ne_empty (S : String) (hS : S ≠ "") : ("Bearer " ++ S) ≠ "" := by
  intro h
  have h7 : 7 < ("Bearer " ++ S).length := by
    rw [String.length_append]
    have h7len : ("Bearer " : String).length = 7 := by decide
    have := length_pos_of_ne_empty S hS
    omega
  rw [h] at h7
  simp [String.length] at h7

/-- C2 counterexample: with the configured secret "Bearer x" (non-empty), a
request whose Authorization header equals the secret literally is rejected,
not accepted: the middleware strips the "Bearer " prefix before comparing,
so the token becomes "x" and mismatches the secret "Bearer x". -/
theorem C2_literal_secret_rejected :
    ("Bearer x" : String) ≠ "" ∧
    authMiddleware "Bearer x" "Bearer x" =
      .reject 401 "invalid authorization token" := by
  constructor
  · decide
  · decide

/-- C2 (amended): for every configured non-empty secret S, the gate accepts
the "Bearer "-prefixed form "Bearer " ++ S; and it accepts the literal form S
whenever stripping leaves S unchanged (that is, whenever S does not itself
begin with the strippable "Bearer " prefix with length above 7). -/
theorem C2_both_header_forms (S : String) (hS : S ≠ "") :
    authMiddleware S ("Bearer " ++ S) = .allow ∧
    (extractToken S = S → authMiddleware S S = .allow) := by
  constructor
  · rw [authMiddleware, if_neg hS, if_neg (bearer_ne_empty S hS)]
    rw [extractToken_bearer S hS, if_pos rfl]
  · intro hfix
    rw [authMiddleware, if_neg hS, if_neg hS, hfix, if_pos rfl]

/-- C2 witness: both header forms at the concrete secret "s". -/
theorem C2_both_header_forms_witness :
    authMiddleware "s" ("Bearer " ++ "s") = .allow ∧
    (extractToken "s" = "s" → authMiddleware "s" "s" = .allow) :=
  C2_both_header_forms "s" (by decide)

/-- C7: with a non-empty configured secret, a missing or empty Authorization
header is rejected with status 401 and error body "authorization token
required", and a present header whose extracted token mismatches the secret
is rejected with status 401 and error body "invalid authorization token". -/
theorem C7_unauthorized_responses (S hdr : String) (hS : S ≠ "") :
    authMiddleware S "" = .reject 401 "authorization token required" ∧
    (hdr ≠ "" → extractToken hdr ≠ S →
      authMiddleware S hdr = .reject 401 "invalid authorization token") := by
  constructor
  · rw [authMiddleware, if_neg hS, if_pos rfl]
  · intro hne hmis
    rw [authMiddleware, if_neg hS, if_neg hne, if_neg hmis]

/-- C7 witness: concrete secret "s" with an absent header and with the
mismatching header "x". -/
theorem C7_unauthorized_responses_witness :
    authMiddleware "s" "" = .reject 401 "authorization token required" ∧
    (("x" : String) ≠ "" → extractToken "x" ≠ "s" →
      authMiddleware "s" "x" = .reject 401 "invalid authorization token") :=
  C7_unauthorized_responses "s" "x" (by decide)

/-- Composition of the middleware with a protected handler, as in
setupRoutes (main.go lines 95-98): the wrapped handler runs only when the
middleware accepts the request, otherwise its 401 response is returned. -/
def routeProtected (authToken authHeader : String) (handler : Resp) : Resp :=
  match authMiddleware authToken authHeader with
  | .allow => handler
  | .reject st msg => ⟨st, .err msg⟩

/-- C6: on an authorized GET /keys/{key} with non-empty key, the valkey.Nil
store error yields 404 with error body "key not found"; any other store
error, whatever backend text it carries, yields 500 with the fixed body
"internal server error" (so no backend text leaks); a present value yields
200 with the key and value. -/
theorem C6_get_outcomes (authToken authHeader key v msg : String)
    (hadm : authMiddleware authToken authHeader = .allow) (hk : key ≠ "") :
    routeProtected authToken authHeader (handleGet key (.error .nil)) =
      ⟨404, .err "key not found"⟩ ∧
    routeProtected authToken authHeader (handleGet key (.error (.other msg))) =
      ⟨500, .err "internal server error"⟩ ∧
    routeProtected authToken authHeader (handleGet key (.ok v)) =
      ⟨200, .kv key v⟩ := by
  simp [routeProtected, hadm, handleGet, hk]

/-- C6 witness: secret "s", header "s", key "k", value "v", backend error
text "boom". -/
theorem C6_get_outcomes_witness :
    routeProtected "s" "s" (handleGet "k" (.error .nil)) =
      ⟨404, .err "key not found"⟩ ∧
    routeProtected "s" "s" (handleGet "k" (.error (.other "boom"))) =
      ⟨500, .err "internal server error"⟩ ∧
    routeProtected "s" "s" (handleGet "k" (.ok "v")) =
      ⟨200, .kv "k" "v"⟩ :=
  C6_get_outcomes "s" "s" "k" "v" "boom" (by decide) (by decide)

/-- C8: on an authorized DELETE /keys/{key} with non-empty key, a removed
count of 0 yields 404 "key not found", a removed count of at least 1 yields
200 with the deleted body, and a transport error yields 500. -/
theorem C8_delete_outcomes (authToken authHeader key e : String) (n : Int)
    (hadm : authMiddleware authToken authHeader = .allow) (hk : key ≠ "") :
    routeProtected authToken authHeader (handleDelete key (.ok 0)) =
      ⟨404, .err "key not found"⟩ ∧
    (1 ≤ n → routeProtected authToken authHeader (handleDelete key (.ok n)) =
      ⟨200, .deleted key⟩) ∧
    routeProtected authToken authHeader (handleDelete key (.error e)) =
      ⟨500, .err "internal server error"⟩ := by
  refine ⟨?_, ?_, ?_⟩
  · simp [routeProtected, hadm, handleDelete, hk]
  · intro hn
    have hne : n ≠ 0 := by omega
    simp [routeProtected, hadm, handleDelete, hk, hne]
  · simp [routeProtected, hadm, handleDelete, hk]

/-- C8 witness: secret "s", header "s", key "k", removed count 1, transport
error "down". -/
theorem C8_delete_outcomes_witness :
    routeProtected "s" "s" (handleDelete "k" (.ok 0)) =
      ⟨404, .err "key not found"⟩ ∧
    ((1 : Int) ≤ 1 → routeProtected "s" "s" (handleDelete "k" (.ok 1)) =
      ⟨200, .deleted "k"⟩) ∧
    routeProtected "s" "s" (handleDelete "k" (.error "down")) =
      ⟨500, .err "internal server error"⟩ :=
  C8_delete_outcomes "s" "s" "k" "down" 1 (by decide) (by decide)

/-- C1: on POST /keys/{key} with non-empty key and a body that decodes to a
request with non-empty value, the handler issues exactly one SET command for
that key and value whose EX argument is the decoded expiration exactly when
it is positive and is absent when it is zero (field absent) or negative; on
store success the response is 201 with the created body. -/
theorem C1_set_command_and_response (key : String) (j : Json) (req : SetRequest)
    (storeErr : Bool) (hdec : decodeSetRequest j = some req) (hk : key ≠ "")
    (hv : req.Value ≠ "") :
    (∃ cmd : SetCmd,
      (handleSet key (decodeSetRequest j) storeErr).2 = some cmd ∧
      cmd.key = key ∧ cmd.value = req.Value ∧
      (cmd.ex = some req.Expiration ↔ 0 < req.Expiration) ∧
      (req.Expiration ≤ 0 → cmd.ex = none)) ∧
    (storeErr = false →
      (handleSet key (decodeSetRequest j) storeErr).1 = ⟨201, .created key⟩) := by
  rw [hdec]
  by_cases hex : 0 < req.Expiration
  · refine ⟨⟨⟨key, req.Value, some req.Expiration⟩, ?_, rfl, rfl, ?_, ?_⟩, ?_⟩
    · cases storeErr <;> simp [handleSet, hk, hv, hex]
    · simp [hex]
    · intro h; omega
    · intro hse; subst hse; simp [handleSet, hk, hv, hex]
  · refine ⟨⟨⟨key, req.Value, none⟩, ?_, rfl, rfl, ?_, ?_⟩, ?_⟩
    · cases storeErr <;> simp [handleSet, hk, hv, hex]
    · simp
      omega
    · intro _; rfl
    · intro hse; subst hse; simp [handleSet, hk, hv, hex]

/-- C1 witness: key "k", body with value "v" and expiration 3600, store
success. -/
theorem C1_set_command_and_response_witness :
    (∃ cmd : SetCmd,
      (handleSet "k"
        (decodeSetRequest (.obj [("value", .str "v"), ("expiration", .num 3600)]))
        false).2 = some cmd ∧
      cmd.key = "k" ∧ cmd.value = (⟨"v", 3600⟩ : SetRequest).Value ∧
      (cmd.ex = some (⟨"v", (3600 : Int)⟩ : SetRequest).Expiration ↔
        0 < (⟨"v", (3600 : Int)⟩ : SetRequest).Expiration) ∧
      ((⟨"v", (3600 : Int)⟩ : SetRequest).Expiration ≤ 0 → cmd.ex = none)) ∧
    (false = false →
      (handleSet "k"
        (decodeSetRequest (.obj [("value", .str "v"), ("expiration", .num 3600)]))
        false).1 = ⟨201, .created "k"⟩) :=
  C1_set_command_and_response "k"
    (.obj [("value", .str "v"), ("expiration", .num 3600)]) ⟨"v", 3600⟩ false
    (by decide) (by decide) (by decide)

/-- Helper: a field whose lowercased name matches neither struct tag is
skipped by the decoder. -/
theorem applyField_skip (req : SetRequest) (n : String) (v : Json)
    (h1 : lowerName n ≠ "value") (h2 : lowerName n ≠ "expiration") :
    applyField req n v = some req := by
  unfold applyField
  rw [if_neg h1, if_neg h2]

/-- Helper: decoding a run of fields none of which matches a struct tag
leaves the partial struct unchanged. -/
theorem decodeFields_skips (req : SetRequest) (extra : List (String × Json))
    (h : ∀ p ∈ extra, lowerName p.1 ≠ "value" ∧ lowerName p.1 ≠ "expiration") :
    decodeFields req extra = some req := by
  induction extra with
  | nil => rfl
  | cons p rest ih =>
    obtain ⟨h1, h2⟩ := h p (by simp)
    obtain ⟨n, v⟩ := p
    rw [decodeFields, applyField_skip req n v h1 h2]
    exact ih fun q hq => h q (by simp [hq])

/-- C10: a body that is a JSON object with "value" bound to a non-empty
string decodes successfully even in the presence of arbitrary additional
fields whose names match neither struct tag, and the set handler never
answers 400 for it: unknown fields are silently ignored. -/
theorem C10_unknown_fields_ignored (key v : String) (extra : List (String × Json))
    (storeErr : Bool) (hk : key ≠ "") (hv : v ≠ "")
    (hextra : ∀ p ∈ extra, lowerName p.1 ≠ "value" ∧ lowerName p.1 ≠ "expiration") :
    decodeSetRequest (.obj (("value", .str v) :: extra)) = some ⟨v, 0⟩ ∧
    (handleSet key (decodeSetRequest (.obj (("value", .str v) :: extra)))
      storeErr).1.status ≠ 400 := by
  have ha : applyField ⟨"", 0⟩ "value" (.str v) = some ⟨v, 0⟩ := by
    unfold applyField
    rw [if_pos (by decide : lowerName "value" = "value")]
  have hdec : decodeSetRequest (.obj (("value", .str v) :: extra)) = some ⟨v, 0⟩ := by
    show decodeFields ⟨"", 0⟩ (("value", .str v) :: extra) = some ⟨v, 0⟩
    rw [decodeFields, ha]
    exact decodeFields_skips ⟨v, 0⟩ extra hextra
  refine ⟨hdec, ?_⟩
  rw [hdec]
  cases storeErr <;> simp [handleSet, hk, hv]

/-- C10 witness: key "k", value "v", one unrecognized extra field "meta". -/
theorem C10_unknown_fields_ignored_witness :
    decodeSetRequest (.obj [("value", .str "v"), ("meta", .str "m")]) =
      some ⟨"v", 0⟩ ∧
    (handleSet "k"
      (decodeSetRequest (.obj [("value", .str "v"), ("meta", .str "m")]))
      false).1.status ≠ 400 :=
  C10_unknown_fields_ignored "k" "v" [("meta", .str "m")] false
    (by decide) (by decide) (by decide)

/-- Leading decimal digit run of a character list, as scanned by the %d
verb: none when no digit is found, otherwise the value of the run. -/
def digitRun (cs : List Char) : Option Nat :=
  let ds := cs.takeWhile Char.isDigit
  if ds.isEmpty then none
  else some (ds.foldl (fun a c => a * 10 + (c.toNat - 48)) 0)

/-- Modelled from fmt.Sscanf with the %d verb (main.go line 225): skip
leading whitespace, accept an optional sign followed by decimal digits, and
stop at the first non-digit; none when no integer could be scanned, in
which case Sscanf leaves the destination variable untouched. -/
def scanInt (s : String) : Option Int :=
  let cs := s.data.dropWhile (fun c => c == ' ' || c == '\t' || c == '\n' || c == '\r')
  match cs with
  | '-' :: rest => (digitRun rest).map (fun n => -(n : Int))
  | '+' :: rest => (digitRun rest).map (fun n => (n : Int))
  | _ => (digitRun cs).map (fun n => (n : Int))

/-- Effective limit computation of main.go lines 222-229: default 100 when
the query parameter is absent; otherwise scan it, keep the default when the
scan assigns nothing, and reset any scanned value outside [1, 1000] back to
100. -/
def parseLimit (limitStr : String) : Int :=
  if limitStr = "" then 100
  else
    let limit := (scanInt limitStr).getD 100
    if 1000 < limit ∨ limit < 1 then 100 else limit

/-- One SCAN reply: a batch of keys and the next cursor. -/
structure ScanEntry where
  keys : List String
  cursor : Nat
  deriving DecidableEq, Repr

/-- Go append on a string slice, keeping track of nilness: appending no
elements to a nil slice leaves it nil, anything else yields a non-nil
slice. -/
def goAppend (s : Option (List String)) (l : List String) : Option (List String) :=
  match s with
  | none => if l.isEmpty then none else some l
  | some xs => some (xs ++ l)

/-- Length of a Go string slice; a nil slice has length 0. -/
def sliceLen (s : Option (List String)) : Int :=
  (s.getD []).length

/-- Truncation of main.go lines 250-252: when the accumulated keys exceed
the limit, keep only the first `limit` of them. -/
def truncKeys (limit : Int) (acc : Option (List String)) : Option (List String) :=
  if limit < sliceLen acc then some ((acc.getD []).take limit.toNat) else acc

/-- End of the list handler, main.go lines 250-258: truncate the
accumulated keys to the limit when they overshoot it, then answer 200 with
the keys and their count. -/
def finishList (limit : Int) (acc : Option (List String)) : Resp :=
  ⟨200, .list (truncKeys limit acc) ((truncKeys limit acc).getD []).length⟩

/-- The scan loop of main.go lines 234-248 together with the epilogue:
`batches` is the sequence of replies the store gives to the successive SCAN
commands. Each iteration appends the batch keys to the accumulator and
stops when the new cursor is 0 or the accumulator has reached the limit; a
failed batch answers 500 at once. The result is none when the given reply
sequence is too short to drive the loop to an answer. -/
def scanLoop (limit : Int) (acc : Option (List String)) :
    List (Except String ScanEntry) → Option Resp
  | [] => none
  | .error _ :: _ => some ⟨500, .err "internal server error"⟩
  | .ok e :: rest =>
    if e.cursor = 0 ∨ limit ≤ sliceLen (goAppend acc e.keys) then
      some (finishList limit (goAppend acc e.keys))
    else
      scanLoop limit (goAppend acc e.keys) rest

/-- The GET /keys handler, main.go lines 213-259: the accumulator starts as
the non-nil empty slice (line 232) and the loop runs under the limit
computed from the query parameter. -/
def handleList (limitStr : String) (batches : List (Except String ScanEntry)) :
    Option Resp :=
  scanLoop (parseLimit limitStr) (some []) batches

/-- JSON serialization of the keys field: a nil slice encodes as null, a
non-nil slice as an array. -/
def encodeStrArray (s : Option (List String)) : String :=
  match s with
  | none => "null"
  | some xs => "[" ++ String.intercalate "," (xs.map (fun x => "\"" ++ x ++ "\"")) ++ "]"

/-- Helper: the effective limit always lands in the inclusive range
[1, 1000], whatever the query parameter was; in particular the list
handler has no error branch for a bad limit. -/
theorem parseLimit_range (s : String) :
    1 ≤ parseLimit s ∧ parseLimit s ≤ 1000 := by
  rw [parseLimit]
  by_cases h1 : s = ""
  · rw [if_pos h1]; omega
  · rw [if_neg h1]
    show 1 ≤ (if 1000 < (scanInt s).getD 100 ∨ (scanInt s).getD 100 < 1
        then (100 : Int) else (scanInt s).getD 100) ∧ _
    by_cases h2 : 1000 < (scanInt s).getD 100 ∨ (scanInt s).getD 100 < 1
    · rw [if_pos h2]; omega
    · rw [if_neg h2]; omega

/-- C3: a scanned limit inside [1, 1000] is used as given; whenever the
scanned value is out of range, or nothing could be scanned, or the
parameter is absent, the effective limit is the default 100; the effective
limit always lies in [1, 1000] (so the handler never errors on a bad
limit); and limit=0 and limit=5000 both become 100. -/
theorem C3_limit_fallback (s : String) :
    (∀ n : Int, scanInt s = some n → 1 ≤ n → n ≤ 1000 → s ≠ "" → parseLimit s = n) ∧
    ((∀ n : Int, scanInt s = some n → n < 1 ∨ 1000 < n) → parseLimit s = 100) ∧
    (1 ≤ parseLimit s ∧ parseLimit s ≤ 1000) ∧
    parseLimit "0" = 100 ∧ parseLimit "5000" = 100 := by
  refine ⟨?_, ?_, parseLimit_range s, by decide, by decide⟩
  · intro n hn hlo hhi hne
    simp only [parseLimit, if_neg hne, hn, Option.getD_some]
    rw [if_neg (by omega)]
  · intro hall
    by_cases hne : s = ""
    · simp [parseLimit, hne]
    · rw [parseLimit, if_neg hne]
      cases hsc : scanInt s with
      | none =>
        show (if 1000 < (Option.none.getD 100 : Int) ∨ (Option.none.getD 100 : Int) < 1
            then (100 : Int) else Option.none.getD 100) = 100
        rw [if_neg (by simp)]
        simp
      | some n =>
        have := hall n hsc
        show (if 1000 < ((some n).getD 100 : Int) ∨ ((some n).getD 100 : Int) < 1
            then (100 : Int) else (some n).getD 100) = 100
        rw [if_pos (by simp; omega)]

/-- C3 witness: limit 500 is kept, limit 5000 falls back to 100. -/
theorem C3_limit_fallback_witness :
    parseLimit "500" = 500 ∧ parseLimit "5000" = 100 := by
  constructor
  · exact (C3_limit_fallback "500").1 500 (by decide) (by decide) (by decide) (by decide)
  · refine (C3_limit_fallback "5000").2.1 ?_
    intro n hn
    have h5 : scanInt "5000" = some 5000 := by decide
    rw [h5] at hn
    injection hn with h
    omega

/-- Helper: if the loop does not finish within a run of batches, appending
a failing batch after that run makes the whole loop answer the generic 500
response, whatever keys the run accumulated. -/
theorem scanLoop_error_reached (limit : Int) (e : String)
    (pre : List (Except String ScanEntry)) :
    ∀ (acc : Option (List String)) (rest : List (Except String ScanEntry)) (r : Resp),
      scanLoop limit acc pre = none →
      scanLoop limit acc (pre ++ .error e :: rest) = some r →
      r = ⟨500, .err "internal server error"⟩ := by
  induction pre with
  | nil =>
    intro acc rest r _ hr
    simp only [List.nil_append, scanLoop] at hr
    exact (Option.some.inj hr).symm
  | cons b pre ih =>
    intro acc rest r hpre hr
    cases b with
    | error msg => simp [scanLoop] at hpre
    | ok entry =>
      simp only [List.cons_append, scanLoop] at hpre hr
      by_cases hc : entry.cursor = 0 ∨ limit ≤ sliceLen (goAppend acc entry.keys)
      · rw [if_pos hc] at hpre; simp at hpre
      · rw [if_neg hc] at hpre hr
        exact ih _ rest r hpre hr

/-- C4: when the scan loop reaches a failing batch (the preceding
successful batches did not finish the loop), the whole listing answers 500
with the fixed generic error body, which carries no keys: results from the
earlier batches are discarded. -/
theorem C4_failed_batch_discards_partial (limitStr e : String)
    (pre rest : List (Except String ScanEntry)) (r : Resp)
    (hpre : scanLoop (parseLimit limitStr) (some []) pre = none)
    (hr : handleList limitStr (pre ++ .error e :: rest) = some r) :
    r = ⟨500, .err "internal server error"⟩ :=
  scanLoop_error_reached (parseLimit limitStr) e pre (some []) rest r hpre hr

/-- C4 witness: one successful batch carrying key "a" with a live cursor,
then a failing batch. -/
theorem C4_failed_batch_discards_partial_witness :
    (⟨500, .err "internal server error"⟩ : Resp) =
      ⟨500, .err "internal server error"⟩ :=
  C4_failed_batch_discards_partial "" "boom" [.ok ⟨["a"], 5⟩] []
    ⟨500, .err "internal server error"⟩ (by decide) (by decide)

/-- Helper: the truncated key slice never holds more than `limit` keys. -/
theorem truncKeys_le (limit : Int) (hl : 1 ≤ limit) (a : Option (List String)) :
    (((truncKeys limit a).getD []).length : Int) ≤ limit := by
  rw [truncKeys]
  by_cases hc : limit < sliceLen a
  · rw [if_pos hc]
    simp only [Option.getD_some, List.length_take]
    have := Nat.min_le_left limit.toNat (a.getD []).length
    omega
  · rw [if_neg hc]
    unfold sliceLen at hc
    omega

/-- Helper: every answer the scan loop produces is either the generic 500
response or the epilogue applied to some accumulator. -/
theorem scanLoop_result (limit : Int) (batches : List (Except String ScanEntry)) :
    ∀ (acc : Option (List String)) (r : Resp),
      scanLoop limit acc batches = some r →
      r = ⟨500, .err "internal server error"⟩ ∨ ∃ a, r = finishList limit a := by
  induction batches with
  | nil => intro acc r h; simp [scanLoop] at h
  | cons b rest ih =>
    intro acc r h
    cases b with
    | error msg =>
      left
      simp only [scanLoop] at h
      exact (Option.some.inj h).symm
    | ok entry =>
      simp only [scanLoop] at h
      by_cases hc : entry.cursor = 0 ∨ limit ≤ sliceLen (goAppend acc entry.keys)
      · rw [if_pos hc] at h
        exact Or.inr ⟨_, (Option.some.inj h).symm⟩
      · rw [if_neg hc] at h
        exact ih _ r h

/-- C5: every successful listing response reports a count equal to the
length of its keys slice, and that length never exceeds the effective
limit computed from the query parameter. -/
theorem C5_count_matches_and_bounded (limitStr : String)
    (batches : List (Except String ScanEntry)) (keys : Option (List String))
    (count : Nat) (h : handleList limitStr batches = some ⟨200, .list keys count⟩) :
    count = (keys.getD []).length ∧ (count : Int) ≤ parseLimit limitStr := by
  rcases scanLoop_result (parseLimit limitStr) batches (some []) _ h with h5 | ⟨a, ha⟩
  · simp at h5
  · rw [finishList] at ha
    simp only [Resp.mk.injEq, RespBody.list.injEq] at ha
    obtain ⟨_, hkeys, hcount⟩ := ha
    constructor
    · rw [hkeys, hcount]
    · rw [hcount]
      exact truncKeys_le _ (parseLimit_range limitStr).1 a

/-- C5 witness: limit 2 with a single overshooting batch of three keys. -/
theorem C5_count_matches_and_bounded_witness :
    (2 : Nat) = ((some ["a", "b"] : Option (List String)).getD []).length ∧
    ((2 : Nat) : Int) ≤ parseLimit "2" :=
  C5_count_matches_and_bounded "2" [.ok ⟨["a", "b", "c"], 7⟩]
    (some ["a", "b"]) 2 (by decide)

/-- Helper: the epilogue on the still-empty accumulator answers 200 with
the non-nil empty slice and count 0. -/
theorem finishList_empty (limit : Int) :
    finishList limit (some []) = ⟨200, .list (some []) 0⟩ := by
  rw [finishList, truncKeys]
  by_cases hc : limit < sliceLen (some [])
  · rw [if_pos hc]; simp
  · rw [if_neg hc]; simp

/-- Helper: when every batch succeeds with zero keys, any answer the loop
reaches is the epilogue on the empty accumulator. -/
theorem scanLoop_all_empty (limit : Int) (batches : List (Except String ScanEntry)) :
    ∀ r : Resp,
      (∀ b ∈ batches, ∃ entry : ScanEntry, b = .ok entry ∧ entry.keys = []) →
      scanLoop limit (some []) batches = some r →
      r = finishList limit (some []) := by
  induction batches with
  | nil => intro r _ h; simp [scanLoop] at h
  | cons b rest ih =>
    intro r hb h
    obtain ⟨entry, hbe, hk⟩ := hb b (by simp)
    subst hbe
    simp only [scanLoop] at h
    have hg : goAppend (some []) entry.keys = some [] := by
      simp [goAppend, hk]
    rw [hg] at h
    by_cases hc : entry.cursor = 0 ∨ limit ≤ sliceLen (some [])
    · rw [if_pos hc] at h
      exact (Option.some.inj h).symm
    · rw [if_neg hc] at h
      exact ih r (fun q hq => hb q (by simp [hq])) h

/-- C9: when every scan batch succeeds with zero keys and the loop reaches
an answer (the terminal cursor 0), the listing answers 200 whose keys field
is the non-nil empty slice with count 0; the non-nil empty slice serializes
as the empty JSON array, never as null. -/
theorem C9_all_empty_batches (limitStr : String)
    (batches : List (Except String ScanEntry)) (r : Resp)
    (hb : ∀ b ∈ batches, ∃ entry : ScanEntry, b = .ok entry ∧ entry.keys = [])
    (hr : handleList limitStr batches = some r) :
    r = ⟨200, .list (some []) 0⟩ ∧ encodeStrArray (some []) = "[]" ∧
      encodeStrArray none = "null" := by
  refine ⟨?_, by decide, by decide⟩
  rw [scanLoop_all_empty (parseLimit limitStr) batches r hb hr, finishList_empty]

/-- C9 witness: a single empty batch whose cursor is already 0. -/
theorem C9_all_empty_batches_witness :
    (⟨200, .list (some []) 0⟩ : Resp) = ⟨200, .list (some []) 0⟩ ∧
    encodeStrArray (some []) = "[]" ∧ encodeStrArray none = "null" :=
  C9_all_empty_batches "" [.ok ⟨[], 0⟩] ⟨200, .list (some []) 0⟩
    (by intro b hb; simp at hb; exact ⟨⟨[], 0⟩, hb, rfl⟩) (by decide)

end ValkeyRest
